import Mathlib

/-!
Shallow embedding of the bare-metal kernel sources in Lean 4.

Embedded source files:
  * src/kernel/src/allocator.rs : the fixed-capacity bump allocator
    (`align_up`, `DummyAllocator::alloc`, `init_heap`).
  * src/kernel/src/pong.rs : the game state statics and the pure state
    transitions (`init_game`, `set_key_w`, `set_key_s`, `start_game`,
    `move_left_paddle_up`, `move_left_paddle_down`, `update_game`,
    `reset_ball`).
  * src/kernel/src/main.rs : the keyboard dispatch for the space key.

Rust `usize` values are modelled as `Nat` with reductions modulo 2^64 at
the points where the source performs machine addition; `usize` subtraction
only occurs where the minuend is provably at least the subtrahend, which
truncated `Nat` subtraction matches.  Rust `i32` fields of the game are
modelled as `Int`; every claim concerns states whose magnitudes stay far
below 2^31, where `i32` and `Int` arithmetic agree.  Framebuffer drawing
and serial logging are I/O side effects with no influence on the state
transitions and are omitted.
-/

namespace Kernel

/-- Number of values of the 64-bit `usize` type. -/
def USIZE : Nat := 2 ^ 64

/-- Source allocator.rs: `pub const HEAP_SIZE: usize = 100 * 1024; // 100 KiB`. -/
def HEAP_SIZE : Nat := 100 * 1024

/-- Source allocator.rs: `fn align_up(addr, align) = (addr + align - 1) & !(align - 1)`.
For `1 ≤ align ≤ 2^64` the 64-bit complement `!(align - 1)` is the numeral
`2^64 - align`; the sum `addr + align - 1` is reduced modulo 2^64 as the
machine addition would be. -/
def align_up (addr align : Nat) : Nat :=
  ((addr + align - 1) % USIZE) &&& (USIZE - align)

/-- The mutable allocator statics `HEAP_START` and `OFFSET` of allocator.rs. -/
structure ArenaState where
  heap_start : Nat
  offset : Nat
  deriving Repr, DecidableEq

/-- Source allocator.rs: `DummyAllocator::alloc`.  Computes the aligned cursor,
the candidate new offset, and either fails (returning the null pointer,
modelled as `none`, with the state untouched) or returns the aligned
address and advances `OFFSET`. -/
def alloc (st : ArenaState) (size align : Nat) : Option Nat × ArenaState :=
  let aligned_offset := align_up (st.heap_start + st.offset) align
  let new_offset := (aligned_offset + size) % USIZE
  if new_offset - st.heap_start > HEAP_SIZE then
    (none, st)
  else
    (some aligned_offset, { st with offset := new_offset - st.heap_start })

/-- Source allocator.rs: `init_heap(offset)` sets `HEAP_START` and zeroes `OFFSET`. -/
def init_heap (base : Nat) : ArenaState :=
  { heap_start := base, offset := 0 }

/-- A whole sequence of `alloc` calls threaded through the arena state,
returning the result of every call together with the final state. -/
def allocList (st : ArenaState) : List (Nat × Nat) → List (Option Nat) × ArenaState
  | [] => ([], st)
  | (size, align) :: rest =>
    let out := alloc st size align
    let outs := allocList out.2 rest
    (out.1 :: outs.1, outs.2)

/-- Sanity condition on one request: a power-of-two alignment, a positive
size (the `GlobalAlloc` contract forbids zero-sized layouts), and room in
the 64-bit address space so that no machine addition wraps. -/
def GoodReq (base : Nat) (r : Nat × Nat) : Prop :=
  (∃ k, k ≤ 64 ∧ r.2 = 2 ^ k) ∧ 1 ≤ r.1 ∧ base + HEAP_SIZE + r.2 + r.1 ≤ USIZE

end Kernel

namespace Pong

/-- Source pong.rs: `const SCREEN_WIDTH: usize = 640` (used through `as i32` casts). -/
def SCREEN_WIDTH : Int := 640

/-- Source pong.rs: `const SCREEN_HEIGHT: usize = 480`. -/
def SCREEN_HEIGHT : Int := 480

/-- Source pong.rs: `const PADDLE_WIDTH: usize = 10`. -/
def PADDLE_WIDTH : Int := 10

/-- Source pong.rs: `const PADDLE_HEIGHT: usize = 60`. -/
def PADDLE_HEIGHT : Int := 60

/-- Source pong.rs: `const BALL_SIZE: usize = 10`. -/
def BALL_SIZE : Int := 10

/-- Source pong.rs: `const PADDLE_OFFSET: usize = 20`. -/
def PADDLE_OFFSET : Int := 20

/-- Source pong.rs: `const PADDLE_SPEED: i32 = 5`. -/
def PADDLE_SPEED : Int := 5

/-- Source pong.rs: `const INITIAL_BALL_SPEED_X: i32 = 2`. -/
def INITIAL_BALL_SPEED_X : Int := 2

/-- Source pong.rs: `const INITIAL_BALL_SPEED_Y: i32 = 2`. -/
def INITIAL_BALL_SPEED_Y : Int := 2

/-- Source pong.rs: `const KEY_RELEASE_DELAY: i32 = 5`. -/
def KEY_RELEASE_DELAY : Int := 5

/-- Source pong.rs: `const RIGHT_PADDLE_SPEED: i32 = 3`. -/
def RIGHT_PADDLE_SPEED : Int := 3

/-- The mutable statics of pong.rs gathered into one record.  Each static is
an independent atomic in the source; the two interrupt handlers run to
completion and never overlap, so every entry point is a plain function on
this record. -/
structure GameState where
  leftPaddleY : Int
  rightPaddleY : Int
  ballX : Int
  ballY : Int
  ballVelX : Int
  ballVelY : Int
  leftScore : Int
  rightScore : Int
  gameActive : Bool
  keyW : Bool
  keyS : Bool
  keyReleaseTimer : Int
  rightPaddleDir : Int
  deriving Repr, DecidableEq

/-- The load-time values of the statics of pong.rs, the state before
`init_game` runs (`GAME_ACTIVE` starts `false`, `KEY_RELEASE_TIMER`
starts `0`, `RIGHT_PADDLE_DIRECTION` starts `1`). -/
def initialStatics : GameState where
  leftPaddleY := (SCREEN_HEIGHT - PADDLE_HEIGHT) / 2
  rightPaddleY := (SCREEN_HEIGHT - PADDLE_HEIGHT) / 2
  ballX := (SCREEN_WIDTH - BALL_SIZE) / 2
  ballY := (SCREEN_HEIGHT - BALL_SIZE) / 2
  ballVelX := INITIAL_BALL_SPEED_X
  ballVelY := INITIAL_BALL_SPEED_Y
  leftScore := 0
  rightScore := 0
  gameActive := false
  keyW := false
  keyS := false
  keyReleaseTimer := 0
  rightPaddleDir := 1

/-- Source pong.rs: `init_game()` (the reset of the spec).  Stores the starting
layout into every static except `KEY_RELEASE_TIMER`, which the source does
not touch.  The drawing and instruction text are omitted I/O. -/
def init_game (st : GameState) : GameState :=
  { st with
    leftPaddleY := (SCREEN_HEIGHT - PADDLE_HEIGHT) / 2,
    rightPaddleY := (SCREEN_HEIGHT - PADDLE_HEIGHT) / 2,
    ballX := (SCREEN_WIDTH - BALL_SIZE) / 2,
    ballY := (SCREEN_HEIGHT - BALL_SIZE) / 2,
    ballVelX := INITIAL_BALL_SPEED_X,
    ballVelY := INITIAL_BALL_SPEED_Y,
    leftScore := 0,
    rightScore := 0,
    gameActive := true,
    keyW := false,
    keyS := false,
    rightPaddleDir := 1 }

/-- Source pong.rs: `set_key_w(pressed)` stores the flag and, only when pressed,
zeroes the release timer. -/
def set_key_w (pressed : Bool) (st : GameState) : GameState :=
  let st1 := { st with keyW := pressed }
  if pressed then { st1 with keyReleaseTimer := 0 } else st1

/-- Source pong.rs: `set_key_s(pressed)`. -/
def set_key_s (pressed : Bool) (st : GameState) : GameState :=
  let st1 := { st with keyS := pressed }
  if pressed then { st1 with keyReleaseTimer := 0 } else st1

/-- Source pong.rs: `start_game()` only stores the active flag. -/
def start_game (st : GameState) : GameState :=
  { st with gameActive := true }

/-- Source pong.rs: `move_left_paddle_up()`. -/
def move_left_paddle_up (st : GameState) : GameState :=
  if st.gameActive then
    if st.leftPaddleY > PADDLE_SPEED then
      { st with leftPaddleY := st.leftPaddleY - PADDLE_SPEED }
    else
      { st with leftPaddleY := 0 }
  else st

/-- Source pong.rs: `move_left_paddle_down()`. -/
def move_left_paddle_down (st : GameState) : GameState :=
  if st.gameActive then
    if st.leftPaddleY < (SCREEN_HEIGHT - PADDLE_HEIGHT) - PADDLE_SPEED then
      { st with leftPaddleY := st.leftPaddleY + PADDLE_SPEED }
    else
      { st with leftPaddleY := SCREEN_HEIGHT - PADDLE_HEIGHT }
  else st

/-- Source pong.rs: `reset_ball()`.  Reads the stored ball velocity (not any local
copy) to choose the sign of the new horizontal velocity. -/
def reset_ball (st : GameState) : GameState :=
  { st with
    ballX := (SCREEN_WIDTH - BALL_SIZE) / 2,
    ballY := (SCREEN_HEIGHT - BALL_SIZE) / 2,
    ballVelX := if st.ballVelX < 0 then INITIAL_BALL_SPEED_X else -INITIAL_BALL_SPEED_X,
    ballVelY := INITIAL_BALL_SPEED_Y }

/-- Source pong.rs: the auto-release block at the top of `update_game`.
`fetch_add` returns the previous timer value, which the threshold test
reads. -/
def autoRelease (st : GameState) : GameState :=
  let timer := st.keyReleaseTimer
  let st1 := { st with keyReleaseTimer := st.keyReleaseTimer + 1 }
  if timer ≥ KEY_RELEASE_DELAY then
    { st1 with keyReleaseTimer := 0, keyW := false, keyS := false }
  else st1

/-- Source pong.rs: the key-state block of `update_game`: a held W moves the left
paddle up, then a held S moves it down. -/
def applyKeys (st : GameState) : GameState :=
  let st1 := if st.keyW then move_left_paddle_up st else st
  if st1.keyS then move_left_paddle_down st1 else st1

/-- Source pong.rs: the right-paddle oscillation block of `update_game`.  The
direction used for the move is the value loaded before the boundary check;
the boundary check may store a direction that the clamping else-branches
overwrite again. -/
def moveRightPaddle (st : GameState) : GameState :=
  let right_paddle_y := st.rightPaddleY
  let right_paddle_dir := st.rightPaddleDir
  let st1 :=
    if right_paddle_y ≤ 0 then { st with rightPaddleDir := 1 }
    else if right_paddle_y ≥ SCREEN_HEIGHT - PADDLE_HEIGHT then
      { st with rightPaddleDir := -1 }
    else st
  if right_paddle_dir > 0 then
    if right_paddle_y < SCREEN_HEIGHT - PADDLE_HEIGHT - RIGHT_PADDLE_SPEED then
      { st1 with rightPaddleY := right_paddle_y + RIGHT_PADDLE_SPEED }
    else
      { st1 with rightPaddleY := SCREEN_HEIGHT - PADDLE_HEIGHT, rightPaddleDir := -1 }
  else
    if right_paddle_y > RIGHT_PADDLE_SPEED then
      { st1 with rightPaddleY := right_paddle_y - RIGHT_PADDLE_SPEED }
    else
      { st1 with rightPaddleY := 0, rightPaddleDir := 1 }

/-- Source pong.rs: the ball block of `update_game`: integration, wall bounce,
left then right paddle collision, scoring with early return, and otherwise
the store of the new position and velocity.  `right_paddle_y` is the value
the source loaded before the oscillation moved the paddle. -/
def ballStep (right_paddle_y : Int) (st : GameState) : GameState :=
  let ball_x := st.ballX + st.ballVelX
  let ball_y := st.ballY + st.ballVelY
  let vel_x := st.ballVelX
  let vel_y := st.ballVelY
  let vel_y := if ball_y ≤ 0 ∨ ball_y ≥ SCREEN_HEIGHT - BALL_SIZE then -vel_y else vel_y
  let left_paddle_y := st.leftPaddleY
  let hitL := ball_x ≤ PADDLE_OFFSET + PADDLE_WIDTH ∧ ball_x ≥ PADDLE_OFFSET ∧
    ball_y + BALL_SIZE ≥ left_paddle_y ∧ ball_y ≤ left_paddle_y + PADDLE_HEIGHT
  let ball_x := if hitL then PADDLE_OFFSET + PADDLE_WIDTH else ball_x
  let vel_x := if hitL then
      (let v := -vel_x; if v < 0 then v - 1 else v + 1)
    else vel_x
  let hitR := ball_x + BALL_SIZE ≥ SCREEN_WIDTH - PADDLE_OFFSET - PADDLE_WIDTH ∧
    ball_x + BALL_SIZE ≤ SCREEN_WIDTH - PADDLE_OFFSET ∧
    ball_y + BALL_SIZE ≥ right_paddle_y ∧ ball_y ≤ right_paddle_y + PADDLE_HEIGHT
  let ball_x := if hitR then SCREEN_WIDTH - PADDLE_OFFSET - PADDLE_WIDTH - BALL_SIZE else ball_x
  let vel_x := if hitR then
      (let v := -vel_x; if v < 0 then v - 1 else v + 1)
    else vel_x
  if ball_x ≤ 0 then
    reset_ball { st with rightScore := st.rightScore + 1 }
  else if ball_x ≥ SCREEN_WIDTH - BALL_SIZE then
    reset_ball { st with leftScore := st.leftScore + 1 }
  else
    { st with ballX := ball_x, ballY := ball_y, ballVelX := vel_x, ballVelY := vel_y }

/-- Source pong.rs: `update_game()`, the timer-interrupt tick.  Immediate return
when the active flag is clear; otherwise auto-release, key handling,
right-paddle oscillation (with the paddle position loaded before the move
kept for the collision test), then the ball block. -/
def update_game (st : GameState) : GameState :=
  if !st.gameActive then st
  else
    let st1 := applyKeys (autoRelease st)
    let right_paddle_y := st1.rightPaddleY
    let st2 := moveRightPaddle st1
    ballStep right_paddle_y st2

/-- Source main.rs: the space-key arm of `key`: `start_game(); set_key_w(false);
set_key_s(false)` (the serve intent). -/
def handle_space (st : GameState) : GameState :=
  set_key_s false (set_key_w false (start_game st))

/-- The start state of the left-paddle-collision scenario: the reset state
with the ball placed at (15,240) moving with velocity (-2,0); the left
paddle sits at its reset position 210 (span 210 to 270). -/
def c5state : GameState :=
  { init_game initialStatics with
    ballX := 15, ballY := 240, ballVelX := -2, ballVelY := 0 }

/-- The start state of the right-scores scenario: the reset state with the
ball at (2,240) moving with velocity (-3,0) and the left paddle moved to
the top (span 0 to 60), so that neither paddle overlaps the ball. -/
def c6state : GameState :=
  { init_game initialStatics with
    ballX := 2, ballY := 240, ballVelX := -3, ballVelY := 0, leftPaddleY := 0 }

end Pong

namespace Kernel

theorem land_two_pow_mask (x k : Nat) (hk : k ≤ 64) (hx : x < 2 ^ 64) :
    x &&& (2 ^ 64 - 2 ^ k) = 2 ^ k * (x / 2 ^ k) := by
  have hmask : (2 : Nat) ^ 64 - 2 ^ k = (2 ^ (64 - k) - 1) <<< k := by
    rw [Nat.shiftLeft_eq, Nat.sub_mul, one_mul, ← pow_add]
    have : 64 - k + k = 64 := by omega
    rw [this]
  have hrhs : 2 ^ k * (x / 2 ^ k) = (x >>> k) <<< k := by
    rw [Nat.shiftRight_eq_div_pow, Nat.shiftLeft_eq, Nat.mul_comm]
  rw [hmask, hrhs]
  apply Nat.eq_of_testBit_eq
  intro i
  rw [Nat.testBit_and, Nat.testBit_shiftLeft, Nat.testBit_shiftLeft,
    Nat.testBit_shiftRight, Nat.testBit_two_pow_sub_one]
  by_cases hik : k ≤ i
  · have hge : decide (i ≥ k) = true := by simp [ge_iff_le, hik]
    rw [hge]
    have hki : k + (i - k) = i := by omega
    rw [hki]
    by_cases hi64 : i < 64
    · have : decide (i - k < 64 - k) = true := by
        simp only [decide_eq_true_eq]; omega
      rw [this]
      simp
    · have hxf : x.testBit i = false := by
        apply Nat.testBit_lt_two_pow
        calc x < 2 ^ 64 := hx
        _ ≤ 2 ^ i := Nat.pow_le_pow_right (by omega) (by omega)
      simp [hxf]
  · have hge : decide (i ≥ k) = false := by simp [ge_iff_le, hik]
    rw [hge]
    simp

theorem align_up_pow_eq (addr k : Nat) (hk : k ≤ 64) (h : addr + 2 ^ k ≤ 2 ^ 64) :
    align_up addr (2 ^ k) = 2 ^ k * ((addr + 2 ^ k - 1) / 2 ^ k) := by
  have hpos : 1 ≤ (2 : Nat) ^ k := Nat.one_le_two_pow
  have hlt : addr + 2 ^ k - 1 < 2 ^ 64 := by omega
  unfold align_up USIZE
  rw [Nat.mod_eq_of_lt hlt]
  exact land_two_pow_mask _ k hk hlt

theorem align_up_pow_le (addr k : Nat) (hk : k ≤ 64) (h : addr + 2 ^ k ≤ 2 ^ 64) :
    addr ≤ align_up addr (2 ^ k) := by
  rw [align_up_pow_eq addr k hk h]
  have hpos : 0 < (2 : Nat) ^ k := Nat.pos_pow_of_pos k (by omega)
  have h3 := Nat.div_add_mod (addr + 2 ^ k - 1) (2 ^ k)
  have h4 := Nat.mod_lt (addr + 2 ^ k - 1) hpos
  omega

theorem align_up_pow_lt (addr k : Nat) (hk : k ≤ 64) (h : addr + 2 ^ k ≤ 2 ^ 64) :
    align_up addr (2 ^ k) ≤ addr + 2 ^ k - 1 := by
  rw [align_up_pow_eq addr k hk h]
  have h3 := Nat.div_add_mod (addr + 2 ^ k - 1) (2 ^ k)
  omega

theorem align_up_pow_dvd (addr k : Nat) (hk : k ≤ 64) (h : addr + 2 ^ k ≤ 2 ^ 64) :
    2 ^ k ∣ align_up addr (2 ^ k) := by
  rw [align_up_pow_eq addr k hk h]
  exact Dvd.intro _ rfl

theorem alloc_eq (st : ArenaState) (size align : Nat) :
    alloc st size align =
      if (align_up (st.heap_start + st.offset) align + size) % USIZE - st.heap_start
          > HEAP_SIZE then
        (none, st)
      else
        (some (align_up (st.heap_start + st.offset) align),
         { st with offset :=
             (align_up (st.heap_start + st.offset) align + size) % USIZE
               - st.heap_start }) := rfl

theorem alloc_none_state (st : ArenaState) (size align : Nat)
    (h : (alloc st size align).1 = none) : (alloc st size align).2 = st := by
  by_cases hg : (align_up (st.heap_start + st.offset) align + size) % USIZE
      - st.heap_start > HEAP_SIZE
  · rw [alloc_eq, if_pos hg]
  · rw [alloc_eq, if_neg hg] at h
    exact absurd h (by simp)

theorem alloc_success_spec (st : ArenaState) (size align k : Nat)
    (hk : k ≤ 64) (hal : align = 2 ^ k) (hsz : 1 ≤ size)
    (hoff : st.offset ≤ HEAP_SIZE)
    (hov : st.heap_start + HEAP_SIZE + align + size ≤ USIZE)
    (a : Nat) (ha : (alloc st size align).1 = some a) :
    st.heap_start + st.offset ≤ a ∧ align ∣ a ∧
    a + size ≤ st.heap_start + HEAP_SIZE ∧
    (alloc st size align).2.heap_start = st.heap_start ∧
    (alloc st size align).2.offset = a + size - st.heap_start := by
  subst hal
  unfold USIZE at hov
  have hone : (1 : Nat) ≤ 2 ^ k := Nat.one_le_two_pow
  have haddr : st.heap_start + st.offset + 2 ^ k ≤ 2 ^ 64 := by
    unfold HEAP_SIZE at hoff hov; omega
  have hle := align_up_pow_le (st.heap_start + st.offset) k hk haddr
  have hltu := align_up_pow_lt (st.heap_start + st.offset) k hk haddr
  have hdvd := align_up_pow_dvd (st.heap_start + st.offset) k hk haddr
  have hmod : (align_up (st.heap_start + st.offset) (2 ^ k) + size) % USIZE
      = align_up (st.heap_start + st.offset) (2 ^ k) + size := by
    apply Nat.mod_eq_of_lt
    unfold USIZE
    omega
  by_cases hg : (align_up (st.heap_start + st.offset) (2 ^ k) + size) % USIZE
      - st.heap_start > HEAP_SIZE
  · rw [alloc_eq, if_pos hg] at ha
    exact absurd ha (by simp)
  · rw [alloc_eq, if_neg hg] at ha ⊢
    rw [hmod] at hg ⊢
    simp only [Option.some.injEq] at ha
    subst ha
    refine ⟨hle, hdvd, ?_, rfl, rfl⟩
    omega

theorem allocList_spec (reqs : List (Nat × Nat)) : ∀ st : ArenaState,
    st.offset ≤ HEAP_SIZE →
    (∀ r ∈ reqs, GoodReq st.heap_start r) →
    (allocList st reqs).2.heap_start = st.heap_start ∧
    st.offset ≤ (allocList st reqs).2.offset ∧
    (allocList st reqs).2.offset ≤ HEAP_SIZE ∧
    (∀ i sz al a, reqs.get? i = some (sz, al) →
        (allocList st reqs).1.get? i = some (some a) →
        st.heap_start + st.offset ≤ a ∧ al ∣ a ∧
        a + sz ≤ st.heap_start + HEAP_SIZE) ∧
    (∀ i j si ali sj alj a b, i < j →
        reqs.get? i = some (si, ali) → reqs.get? j = some (sj, alj) →
        (allocList st reqs).1.get? i = some (some a) →
        (allocList st reqs).1.get? j = some (some b) →
        a + si ≤ b) := by
  induction reqs with
  | nil =>
    intro st hoff _
    refine ⟨rfl, le_refl _, hoff, ?_, ?_⟩
    · intro i sz al a hq _
      simp [List.get?_nil] at hq
    · intro i j si ali sj alj a b _ hq _ _ _
      simp [List.get?_nil] at hq
  | cons hd rest ih =>
    obtain ⟨size, align⟩ := hd
    intro st hoff hreqs
    have hhead : GoodReq st.heap_start (size, align) := hreqs _ (List.mem_cons_self _ _)
    obtain ⟨⟨k, hk, hal⟩, hsz, hov⟩ := hhead
    simp only [allocList]
    cases ha : (alloc st size align).1 with
    | none =>
      have hst : (alloc st size align).2 = st := alloc_none_state st size align ha
      rw [hst]
      obtain ⟨ih1, ih2, ih3, ih4, ih5⟩ :=
        ih st hoff (fun r hr => hreqs r (List.mem_cons_of_mem _ hr))
      refine ⟨ih1, ih2, ih3, ?_, ?_⟩
      · intro i sz al a hq hr
        cases i with
        | zero =>
          rw [List.get?_cons_zero] at hr
          simp [ha] at hr
        | succ i0 =>
          rw [List.get?_cons_succ] at hq hr
          exact ih4 i0 sz al a hq hr
      · intro i j si ali sj alj a b hij hqi hqj hri hrj
        cases i with
        | zero =>
          rw [List.get?_cons_zero] at hri
          simp [ha] at hri
        | succ i0 =>
          cases j with
          | zero => omega
          | succ j0 =>
            rw [List.get?_cons_succ] at hqi hqj hri hrj
            exact ih5 i0 j0 si ali sj alj a b (by omega) hqi hqj hri hrj
    | some a0 =>
      obtain ⟨hge, hdvd, hfit, hbase1, hoff1⟩ :=
        alloc_success_spec st size align k hk hal hsz hoff hov a0 ha
      have hoffle : st.offset ≤ (alloc st size align).2.offset := by
        rw [hoff1]; omega
      have hoff1le : (alloc st size align).2.offset ≤ HEAP_SIZE := by
        rw [hoff1]; omega
      have hsum : st.heap_start + (alloc st size align).2.offset = a0 + size := by
        rw [hoff1]; omega
      have hgood : ∀ r ∈ rest, GoodReq (alloc st size align).2.heap_start r := by
        rw [hbase1]
        exact fun r hr => hreqs r (List.mem_cons_of_mem _ hr)
      obtain ⟨ih1, ih2, ih3, ih4, ih5⟩ := ih (alloc st size align).2 hoff1le hgood
      refine ⟨by rw [ih1, hbase1], le_trans hoffle ih2, ih3, ?_, ?_⟩
      · intro i sz al a hq hr
        cases i with
        | zero =>
          rw [List.get?_cons_zero] at hq hr
          simp only [Option.some.injEq, Prod.mk.injEq] at hq
          simp only [Option.some.injEq] at hr
          obtain ⟨hq1, hq2⟩ := hq
          subst hq1; subst hq2; subst hr
          exact ⟨hge, hdvd, hfit⟩
        | succ i0 =>
          rw [List.get?_cons_succ] at hq hr
          have h4 := ih4 i0 sz al a hq hr
          rw [hbase1] at h4
          exact ⟨by omega, h4.2.1, h4.2.2⟩
      · intro i j si ali sj alj a b hij hqi hqj hri hrj
        cases j with
        | zero => omega
        | succ j0 =>
          rw [List.get?_cons_succ] at hqj hrj
          cases i with
          | zero =>
            rw [List.get?_cons_zero] at hqi hri
            simp only [Option.some.injEq, Prod.mk.injEq] at hqi
            simp only [Option.some.injEq] at hri
            obtain ⟨hq1, hq2⟩ := hqi
            subst hq1; subst hq2; subst hri
            have h4 := ih4 j0 sj alj b hqj hrj
            omega
          | succ i0 =>
            rw [List.get?_cons_succ] at hqi hri
            exact ih5 i0 j0 si ali sj alj a b (by omega) hqi hqj hri hrj

end Kernel

namespace Pong

theorem update_game_of_inactive (st : GameState) (h : st.gameActive = false) :
    update_game st = st := by
  unfold update_game
  rw [h]
  rfl

theorem update_game_of_active (st : GameState) (h : st.gameActive = true) :
    update_game st =
      ballStep ((applyKeys (autoRelease st)).rightPaddleY)
        (moveRightPaddle (applyKeys (autoRelease st))) := by
  unfold update_game
  rw [h]
  rfl

theorem autoRelease_of_lt (st : GameState) (h : st.keyReleaseTimer < KEY_RELEASE_DELAY) :
    autoRelease st = { st with keyReleaseTimer := st.keyReleaseTimer + 1 } := by
  unfold autoRelease
  rw [if_neg (by omega)]

theorem autoRelease_of_ge (st : GameState) (h : st.keyReleaseTimer ≥ KEY_RELEASE_DELAY) :
    autoRelease st = { st with keyReleaseTimer := 0, keyW := false, keyS := false } := by
  unfold autoRelease
  rw [if_pos h]

theorem move_left_up_shape (st : GameState) :
    ∃ y, move_left_paddle_up st = { st with leftPaddleY := y } := by
  unfold move_left_paddle_up
  split
  · split
    · exact ⟨_, rfl⟩
    · exact ⟨_, rfl⟩
  · exact ⟨st.leftPaddleY, rfl⟩

theorem move_left_down_shape (st : GameState) :
    ∃ y, move_left_paddle_down st = { st with leftPaddleY := y } := by
  unfold move_left_paddle_down
  split
  · split
    · exact ⟨_, rfl⟩
    · exact ⟨_, rfl⟩
  · exact ⟨st.leftPaddleY, rfl⟩

theorem applyKeys_shape (st : GameState) :
    ∃ y, applyKeys st = { st with leftPaddleY := y } := by
  unfold applyKeys
  dsimp only
  split
  · split
    · obtain ⟨y1, h1⟩ := move_left_up_shape st
      rw [h1]
      obtain ⟨y2, h2⟩ := move_left_down_shape { st with leftPaddleY := y1 }
      rw [h2]
      exact ⟨y2, rfl⟩
    · exact move_left_up_shape st
  · split
    · exact move_left_down_shape st
    · exact ⟨st.leftPaddleY, rfl⟩

theorem autoRelease_shape (st : GameState) :
    ∃ w s t, autoRelease st = { st with keyW := w, keyS := s, keyReleaseTimer := t } := by
  unfold autoRelease
  dsimp only
  split
  · exact ⟨_, _, _, rfl⟩
  · exact ⟨st.keyW, st.keyS, _, rfl⟩

theorem moveRightPaddle_shape (st : GameState) :
    ∃ y d, moveRightPaddle st = { st with rightPaddleY := y, rightPaddleDir := d } := by
  unfold moveRightPaddle
  dsimp only
  split <;> split <;> (repeat' split) <;> exact ⟨_, _, rfl⟩

theorem ballStep_shape (y : Int) (st : GameState) :
    ∃ bx bb vx vy ls rs, ballStep y st =
      { st with
        ballX := bx, ballY := bb, ballVelX := vx, ballVelY := vy,
        leftScore := ls, rightScore := rs } := by
  unfold ballStep reset_ball
  dsimp only
  repeat' split
  all_goals exact ⟨_, _, _, _, _, _, rfl⟩

theorem update_game_keys (st : GameState) (ha : st.gameActive = true) :
    (update_game st).keyW = (autoRelease st).keyW ∧
    (update_game st).keyS = (autoRelease st).keyS ∧
    (update_game st).keyReleaseTimer = (autoRelease st).keyReleaseTimer ∧
    (update_game st).gameActive = st.gameActive := by
  rw [update_game_of_active st ha]
  obtain ⟨w, s, t, h0⟩ := autoRelease_shape st
  obtain ⟨y1, h1⟩ := applyKeys_shape (autoRelease st)
  obtain ⟨ry, rd, h2⟩ := moveRightPaddle_shape (applyKeys (autoRelease st))
  obtain ⟨bx, bb, vx, vy, ls, rs, h3⟩ :=
    ballStep_shape ((applyKeys (autoRelease st)).rightPaddleY)
      (moveRightPaddle (applyKeys (autoRelease st)))
  rw [h3, h2, h1, h0]
  exact ⟨rfl, rfl, rfl, rfl⟩

theorem tick_step_keys (st : GameState) (ha : st.gameActive = true)
    (ht : st.keyReleaseTimer < KEY_RELEASE_DELAY) :
    (update_game st).gameActive = true ∧ (update_game st).keyW = st.keyW ∧
    (update_game st).keyS = st.keyS ∧
    (update_game st).keyReleaseTimer = st.keyReleaseTimer + 1 := by
  obtain ⟨k1, k2, k3, k4⟩ := update_game_keys st ha
  rw [autoRelease_of_lt st ht] at k1 k2 k3
  exact ⟨by rw [k4, ha], by rw [k1], by rw [k2], by rw [k3]⟩

theorem tick_step_release (st : GameState) (ha : st.gameActive = true)
    (ht : st.keyReleaseTimer ≥ KEY_RELEASE_DELAY) :
    (update_game st).gameActive = true ∧ (update_game st).keyW = false ∧
    (update_game st).keyS = false ∧ (update_game st).keyReleaseTimer = 0 := by
  obtain ⟨k1, k2, k3, k4⟩ := update_game_keys st ha
  rw [autoRelease_of_ge st ht] at k1 k2 k3
  exact ⟨by rw [k4, ha], by rw [k1], by rw [k2], by rw [k3]⟩

theorem moveRightPaddle_bounds (st : GameState)
    (h0 : 0 ≤ st.rightPaddleY) (h1 : st.rightPaddleY ≤ SCREEN_HEIGHT - PADDLE_HEIGHT) :
    (0 ≤ (moveRightPaddle st).rightPaddleY ∧
     (moveRightPaddle st).rightPaddleY ≤ SCREEN_HEIGHT - PADDLE_HEIGHT) ∧
    ((moveRightPaddle st).rightPaddleY = 0 → (moveRightPaddle st).rightPaddleDir = 1) ∧
    ((moveRightPaddle st).rightPaddleY = SCREEN_HEIGHT - PADDLE_HEIGHT →
      (moveRightPaddle st).rightPaddleDir = -1) := by
  unfold moveRightPaddle
  simp only [SCREEN_HEIGHT, PADDLE_HEIGHT, RIGHT_PADDLE_SPEED] at *
  split <;> split <;> split <;> simp <;> omega

end Pong

/-- C1: for every sequence of allocation requests with power-of-two
alignments (positive sizes, fitting the 64-bit address space), every
address returned by a successful allocation lies in
[base, base + HEAP_SIZE), is a multiple of the requested alignment, and
the byte range [address, address + size) does not overlap the byte range
of any earlier successful allocation. -/
theorem C1_alloc_sequence (base : Nat) (reqs : List (Nat × Nat))
    (hreqs : ∀ r ∈ reqs, Kernel.GoodReq base r) :
    (∀ i sz al a, reqs.get? i = some (sz, al) →
        (Kernel.allocList (Kernel.init_heap base) reqs).1.get? i = some (some a) →
        base ≤ a ∧ a < base + Kernel.HEAP_SIZE ∧
        a + sz ≤ base + Kernel.HEAP_SIZE ∧ al ∣ a) ∧
    (∀ i j si ali sj alj a b, i < j →
        reqs.get? i = some (si, ali) → reqs.get? j = some (sj, alj) →
        (Kernel.allocList (Kernel.init_heap base) reqs).1.get? i = some (some a) →
        (Kernel.allocList (Kernel.init_heap base) reqs).1.get? j = some (some b) →
        a + si ≤ b) := by
  obtain ⟨-, -, -, h4, h5⟩ := Kernel.allocList_spec reqs (Kernel.init_heap base)
    (by simp [Kernel.init_heap]) hreqs
  constructor
  · intro i sz al a hq hr
    have hh := h4 i sz al a hq hr
    have hmem : (sz, al) ∈ reqs := List.get?_mem hq
    obtain ⟨-, hsz, -⟩ := hreqs _ hmem
    have ha1 : base ≤ a := by simpa [Kernel.init_heap] using hh.1
    have ha2 : a + sz ≤ base + Kernel.HEAP_SIZE := hh.2.2
    exact ⟨ha1, by omega, ha2, hh.2.1⟩
  · exact h5

/-- C1 witness: base 4096 with the request sequence [(8 bytes, align 8),
(100 bytes, align 16)]; the two returned addresses are 4096 and 4112. -/
theorem C1_witness :
    (∀ r ∈ [((8 : Nat), (8 : Nat)), ((100 : Nat), (16 : Nat))], Kernel.GoodReq 4096 r) ∧
    (4096 ≤ 4112 ∧ 4112 < 4096 + Kernel.HEAP_SIZE ∧
     4112 + 100 ≤ 4096 + Kernel.HEAP_SIZE ∧ 16 ∣ 4112) ∧
    4096 + 8 ≤ 4112 := by
  have hreqs : ∀ r ∈ [((8 : Nat), (8 : Nat)), ((100 : Nat), (16 : Nat))],
      Kernel.GoodReq 4096 r := by
    intro r hr
    simp only [List.mem_cons, List.not_mem_nil, or_false] at hr
    rcases hr with h | h <;> subst h
    · exact ⟨⟨3, by decide, by decide⟩, by decide, by decide⟩
    · exact ⟨⟨4, by decide, by decide⟩, by decide, by decide⟩
  have h := C1_alloc_sequence 4096 [(8, 8), (100, 16)] hreqs
  have h1 := h.1 1 100 16 4112 (by decide) (by decide)
  have h2 := h.2 0 1 8 8 100 16 4096 4112 (by decide) (by decide) (by decide)
    (by decide) (by decide)
  exact ⟨hreqs, h1, h2⟩

/-- C2: when the reservation would exceed the fixed 100 KiB capacity,
alloc returns the failure indicator and leaves the arena state (hence the
offset and every earlier range) unchanged, and any later request behaves
exactly as it would have before the failed call. -/
theorem C2_alloc_fail (st : Kernel.ArenaState) (size align : Nat)
    (h : (Kernel.align_up (st.heap_start + st.offset) align + size) % Kernel.USIZE
        - st.heap_start > Kernel.HEAP_SIZE) :
    Kernel.alloc st size align = (none, st) ∧
    ∀ size2 align2, Kernel.alloc (Kernel.alloc st size align).2 size2 align2
      = Kernel.alloc st size2 align2 := by
  have he : Kernel.alloc st size align = (none, st) := by
    rw [Kernel.alloc_eq, if_pos h]
  exact ⟨he, fun s2 a2 => by rw [he]⟩

/-- C2 witness: a 200000-byte request on the fresh arena at base 0 trips
the capacity guard, returns the failure indicator with the state intact,
and a following 100-byte request behaves as on the fresh arena. -/
theorem C2_witness :
    ((Kernel.align_up ((Kernel.init_heap 0).heap_start + (Kernel.init_heap 0).offset) 1
        + 200000) % Kernel.USIZE - (Kernel.init_heap 0).heap_start > Kernel.HEAP_SIZE) ∧
    Kernel.alloc (Kernel.init_heap 0) 200000 1 = (none, Kernel.init_heap 0) ∧
    Kernel.alloc (Kernel.alloc (Kernel.init_heap 0) 200000 1).2 100 8
      = Kernel.alloc (Kernel.init_heap 0) 100 8 := by
  have h : (Kernel.align_up ((Kernel.init_heap 0).heap_start + (Kernel.init_heap 0).offset) 1
      + 200000) % Kernel.USIZE - (Kernel.init_heap 0).heap_start > Kernel.HEAP_SIZE := by
    decide
  exact ⟨h, (C2_alloc_fail (Kernel.init_heap 0) 200000 1 h).1,
    (C2_alloc_fail (Kernel.init_heap 0) 200000 1 h).2 100 8⟩

/-- C3 counterexample: from the boot state with the move-up flag just set
and the idle counter zeroed, the flag is still set after 5 ticks (the
counter has only then reached the threshold; the compare is against the
pre-increment value), so 5 ticks do not clear it. -/
theorem C3_counterexample :
    (Pong.update_game^[5] (Pong.set_key_w true (Pong.init_game Pong.initialStatics))).keyW
      = true ∧
    (Pong.update_game^[5]
      (Pong.set_key_w true (Pong.init_game Pong.initialStatics))).keyReleaseTimer = 5 := by
  decide

/-- C3 (amended): from any active state where the move-up flag has just
been set and the idle counter reset to zero, with no further input, the
flag survives 5 ticks and is cleared on the 6th: the tick whose fetched
pre-increment counter value equals the threshold 5 clears both left-input
flags and zeroes the counter. -/
theorem C3_auto_release (st : Pong.GameState) (ha : st.gameActive = true)
    (hw : st.keyW = true) (ht : st.keyReleaseTimer = 0) :
    (Pong.update_game^[5] st).keyW = true ∧
    (Pong.update_game^[6] st).keyW = false ∧
    (Pong.update_game^[6] st).keyS = false ∧
    (Pong.update_game^[6] st).keyReleaseTimer = 0 := by
  have s1 := Pong.tick_step_keys st ha (by rw [ht]; decide)
  have s2 := Pong.tick_step_keys (Pong.update_game st) s1.1
    (by rw [s1.2.2.2, ht]; decide)
  have s3 := Pong.tick_step_keys (Pong.update_game (Pong.update_game st)) s2.1
    (by rw [s2.2.2.2, s1.2.2.2, ht]; decide)
  have s4 := Pong.tick_step_keys
    (Pong.update_game (Pong.update_game (Pong.update_game st))) s3.1
    (by rw [s3.2.2.2, s2.2.2.2, s1.2.2.2, ht]; decide)
  have s5 := Pong.tick_step_keys
    (Pong.update_game (Pong.update_game (Pong.update_game (Pong.update_game st)))) s4.1
    (by rw [s4.2.2.2, s3.2.2.2, s2.2.2.2, s1.2.2.2, ht]; decide)
  have ht5 : (Pong.update_game (Pong.update_game (Pong.update_game
      (Pong.update_game (Pong.update_game st))))).keyReleaseTimer = 5 := by
    have e1 := s1.2.2.2
    have e2 := s2.2.2.2
    have e3 := s3.2.2.2
    have e4 := s4.2.2.2
    have e5 := s5.2.2.2
    omega
  have s6 := Pong.tick_step_release (Pong.update_game (Pong.update_game
      (Pong.update_game (Pong.update_game (Pong.update_game st))))) s5.1
    (by rw [ht5]; decide)
  have hw5 : (Pong.update_game (Pong.update_game (Pong.update_game
      (Pong.update_game (Pong.update_game st))))).keyW = true := by
    rw [s5.2.1, s4.2.1, s3.2.1, s2.2.1, s1.2.1]
    exact hw
  exact ⟨hw5, s6.2.1, s6.2.2.1, s6.2.2.2⟩

/-- C3 witness: the boot state right after a W keypress satisfies the
hypotheses, and the six-tick behaviour follows from the theorem. -/
theorem C3_witness :
    (Pong.set_key_w true (Pong.init_game Pong.initialStatics)).gameActive = true ∧
    (Pong.set_key_w true (Pong.init_game Pong.initialStatics)).keyW = true ∧
    (Pong.set_key_w true (Pong.init_game Pong.initialStatics)).keyReleaseTimer = 0 ∧
    ((Pong.update_game^[5] (Pong.set_key_w true (Pong.init_game Pong.initialStatics))).keyW
        = true ∧
     (Pong.update_game^[6] (Pong.set_key_w true (Pong.init_game Pong.initialStatics))).keyW
        = false ∧
     (Pong.update_game^[6] (Pong.set_key_w true (Pong.init_game Pong.initialStatics))).keyS
        = false ∧
     (Pong.update_game^[6]
        (Pong.set_key_w true (Pong.init_game Pong.initialStatics))).keyReleaseTimer = 0) :=
  ⟨rfl, rfl, rfl,
    C3_auto_release (Pong.set_key_w true (Pong.init_game Pong.initialStatics)) rfl rfl rfl⟩

/-- C4 counterexample: after one tick from boot the ball sits at X = 317;
handling the space key then leaves it there, while the starting layout has
the ball at X = 315 — a serve does not restore the starting layout. -/
theorem C4_counterexample :
    (Pong.handle_space (Pong.update_game (Pong.init_game Pong.initialStatics))).ballX
      = 317 ∧
    (Pong.init_game Pong.initialStatics).ballX = 315 ∧
    Pong.handle_space (Pong.update_game (Pong.init_game Pong.initialStatics)) ≠
      Pong.init_game (Pong.handle_space
        (Pong.update_game (Pong.init_game Pong.initialStatics))) := by
  decide

/-- C4 (amended): handling the space key only sets the active flag and
clears both left-input flags; every other Match State field (paddles,
ball position and velocity, scores, AI direction, idle-tick counter)
keeps its value — a serve is not the full reset. -/
theorem C4_serve_sets_active_only (st : Pong.GameState) :
    Pong.handle_space st = { st with gameActive := true, keyW := false, keyS := false } :=
  rfl

/-- C5 counterexample: from the claimed start (ball (15,240), velocity
(-2,0), left paddle 210) one tick moves the ball to X = 13 with velocity
X still -2: the collision branch does not fire because the moved ball X
lies left of the paddle band [20,30], refuting the claimed X = 30 and
velocity +3. -/
theorem C5_counterexample :
    (Pong.update_game Pong.c5state).ballX = 13 ∧
    ¬ (Pong.update_game Pong.c5state).ballX = 30 ∧
    (Pong.update_game Pong.c5state).ballVelX = -2 ∧
    ¬ (Pong.update_game Pong.c5state).ballVelX = 3 := by
  decide

/-- C5 (amended): starting a tick with the game active, ball at (15,240),
ball velocity (-2,0) and left paddle Y = 210, one tick yields ball X = 13
with velocity unchanged and neither score changed (no collision occurs;
the AI paddle advances to 213 and the idle counter to 1). -/
theorem C5_no_collision_tick :
    Pong.update_game Pong.c5state =
      { Pong.c5state with
        ballX := 13, rightPaddleY := 213, keyReleaseTimer := 1 } := by
  decide

/-- C6: starting a tick with the game active, ball at (2,240), velocity
(-3,0) and no paddle overlap, one tick increments the right score by
exactly 1, resets the ball to (315,235), flips the horizontal velocity
sign to +2, leaves the active flag untouched and does not store the
integrated position -1. -/
theorem C6_right_scores :
    Pong.update_game Pong.c6state =
      { Pong.c6state with
        rightPaddleY := 213, keyReleaseTimer := 1, rightScore := 1,
        ballX := 315, ballY := 235, ballVelX := 2, ballVelY := 2 } := by
  decide

/-- C7: immediately after the reset, both paddle fields equal
(screen height - paddle height) / 2 = 210, the ball sits at
((screen width - ball size) / 2, (screen height - ball size) / 2)
= (315,235), both scores are 0 and the active flag is set. -/
theorem C7_reset_layout (st : Pong.GameState) :
    (Pong.init_game st).leftPaddleY = (Pong.SCREEN_HEIGHT - Pong.PADDLE_HEIGHT) / 2 ∧
    (Pong.init_game st).leftPaddleY = 210 ∧
    (Pong.init_game st).rightPaddleY = 210 ∧
    (Pong.init_game st).ballX = (Pong.SCREEN_WIDTH - Pong.BALL_SIZE) / 2 ∧
    (Pong.init_game st).ballY = (Pong.SCREEN_HEIGHT - Pong.BALL_SIZE) / 2 ∧
    (Pong.init_game st).ballX = 315 ∧
    (Pong.init_game st).ballY = 235 ∧
    (Pong.init_game st).leftScore = 0 ∧
    (Pong.init_game st).rightScore = 0 ∧
    (Pong.init_game st).gameActive = true := by
  refine ⟨rfl, ?_, ?_, rfl, rfl, ?_, ?_, rfl, rfl, rfl⟩
  · show (Pong.SCREEN_HEIGHT - Pong.PADDLE_HEIGHT) / 2 = 210
    decide
  · show (Pong.SCREEN_HEIGHT - Pong.PADDLE_HEIGHT) / 2 = 210
    decide
  · show (Pong.SCREEN_WIDTH - Pong.BALL_SIZE) / 2 = 315
    decide
  · show (Pong.SCREEN_HEIGHT - Pong.BALL_SIZE) / 2 = 235
    decide

/-- C8: the left paddle interval [0, screen height - paddle height] is
preserved by every move-up and every move-down, so sustained movement can
never push the paddle outside the screen band. -/
theorem C8_left_paddle_clamp (st : Pong.GameState)
    (h0 : 0 ≤ st.leftPaddleY)
    (h1 : st.leftPaddleY ≤ Pong.SCREEN_HEIGHT - Pong.PADDLE_HEIGHT) :
    (0 ≤ (Pong.move_left_paddle_up st).leftPaddleY ∧
     (Pong.move_left_paddle_up st).leftPaddleY
        ≤ Pong.SCREEN_HEIGHT - Pong.PADDLE_HEIGHT) ∧
    (0 ≤ (Pong.move_left_paddle_down st).leftPaddleY ∧
     (Pong.move_left_paddle_down st).leftPaddleY
        ≤ Pong.SCREEN_HEIGHT - Pong.PADDLE_HEIGHT) := by
  unfold Pong.move_left_paddle_up Pong.move_left_paddle_down
  simp only [Pong.SCREEN_HEIGHT, Pong.PADDLE_HEIGHT, Pong.PADDLE_SPEED] at *
  refine ⟨?_, ?_⟩ <;> (repeat' split) <;> simp <;> omega

/-- C8 witness: the reset state has the left paddle at 210, inside the
band, and both moves keep it inside. -/
theorem C8_witness :
    ((0 : Int) ≤ (Pong.init_game Pong.initialStatics).leftPaddleY ∧
     (Pong.init_game Pong.initialStatics).leftPaddleY
        ≤ Pong.SCREEN_HEIGHT - Pong.PADDLE_HEIGHT) ∧
    ((0 ≤ (Pong.move_left_paddle_up (Pong.init_game Pong.initialStatics)).leftPaddleY ∧
      (Pong.move_left_paddle_up (Pong.init_game Pong.initialStatics)).leftPaddleY
        ≤ Pong.SCREEN_HEIGHT - Pong.PADDLE_HEIGHT) ∧
     (0 ≤ (Pong.move_left_paddle_down (Pong.init_game Pong.initialStatics)).leftPaddleY ∧
      (Pong.move_left_paddle_down (Pong.init_game Pong.initialStatics)).leftPaddleY
        ≤ Pong.SCREEN_HEIGHT - Pong.PADDLE_HEIGHT)) :=
  ⟨⟨by decide, by decide⟩,
    C8_left_paddle_clamp (Pong.init_game Pong.initialStatics) (by decide) (by decide)⟩

/-- C9: when the active flag is clear a tick leaves the whole Match State
record — every field — unchanged. -/
theorem C9_inactive_noop (st : Pong.GameState) (h : st.gameActive = false) :
    Pong.update_game st = st :=
  Pong.update_game_of_inactive st h

/-- C9 witness: the load-time statics have the active flag clear and a
tick leaves them unchanged. -/
theorem C9_witness :
    Pong.initialStatics.gameActive = false ∧
    Pong.update_game Pong.initialStatics = Pong.initialStatics :=
  ⟨rfl, C9_inactive_noop Pong.initialStatics rfl⟩

/-- C10: a tick keeps the right paddle inside [0, screen height - paddle
height], and on an active tick that leaves the paddle on a boundary the
stored AI direction points away from that boundary. -/
theorem C10_right_paddle_bounds (st : Pong.GameState)
    (h0 : 0 ≤ st.rightPaddleY)
    (h1 : st.rightPaddleY ≤ Pong.SCREEN_HEIGHT - Pong.PADDLE_HEIGHT) :
    (0 ≤ (Pong.update_game st).rightPaddleY ∧
     (Pong.update_game st).rightPaddleY ≤ Pong.SCREEN_HEIGHT - Pong.PADDLE_HEIGHT) ∧
    (st.gameActive = true →
      ((Pong.update_game st).rightPaddleY = 0 →
        (Pong.update_game st).rightPaddleDir = 1) ∧
      ((Pong.update_game st).rightPaddleY = Pong.SCREEN_HEIGHT - Pong.PADDLE_HEIGHT →
        (Pong.update_game st).rightPaddleDir = -1)) := by
  cases hact : st.gameActive with
  | false =>
    rw [Pong.update_game_of_inactive st hact]
    exact ⟨⟨h0, h1⟩, fun habs => absurd habs (by simp [hact])⟩
  | true =>
    rw [Pong.update_game_of_active st hact]
    obtain ⟨w, s, t, h0s⟩ := Pong.autoRelease_shape st
    obtain ⟨y1, h1s⟩ := Pong.applyKeys_shape (Pong.autoRelease st)
    obtain ⟨bx, bb, vx, vy, ls, rs, h3s⟩ :=
      Pong.ballStep_shape ((Pong.applyKeys (Pong.autoRelease st)).rightPaddleY)
        (Pong.moveRightPaddle (Pong.applyKeys (Pong.autoRelease st)))
    rw [h3s]
    have hA : (Pong.applyKeys (Pong.autoRelease st)).rightPaddleY = st.rightPaddleY := by
      rw [h1s, h0s]
    have hb := Pong.moveRightPaddle_bounds (Pong.applyKeys (Pong.autoRelease st))
      (by rw [hA]; exact h0) (by rw [hA]; exact h1)
    exact ⟨hb.1, fun _ => hb.2⟩

/-- C10 witness: the reset state has the right paddle at 210, inside the
band, and a tick keeps it inside with the boundary-direction property. -/
theorem C10_witness :
    ((0 : Int) ≤ (Pong.init_game Pong.initialStatics).rightPaddleY ∧
     (Pong.init_game Pong.initialStatics).rightPaddleY
        ≤ Pong.SCREEN_HEIGHT - Pong.PADDLE_HEIGHT) ∧
    ((0 ≤ (Pong.update_game (Pong.init_game Pong.initialStatics)).rightPaddleY ∧
      (Pong.update_game (Pong.init_game Pong.initialStatics)).rightPaddleY
        ≤ Pong.SCREEN_HEIGHT - Pong.PADDLE_HEIGHT) ∧
     ((Pong.init_game Pong.initialStatics).gameActive = true →
       ((Pong.update_game (Pong.init_game Pong.initialStatics)).rightPaddleY = 0 →
         (Pong.update_game (Pong.init_game Pong.initialStatics)).rightPaddleDir = 1) ∧
       ((Pong.update_game (Pong.init_game Pong.initialStatics)).rightPaddleY
           = Pong.SCREEN_HEIGHT - Pong.PADDLE_HEIGHT →
         (Pong.update_game (Pong.init_game Pong.initialStatics)).rightPaddleDir = -1))) :=
  ⟨⟨by decide, by decide⟩,
    C10_right_paddle_bounds (Pong.init_game Pong.initialStatics) (by decide) (by decide)⟩
